import Mathlib

/-!
# goo: the `/check-downloadable` handler of `main.go`

A shallow embedding of `main.go` and theorems about it.

* Go strings are Lean `String`s; the request body is JSON, so the link is valid UTF-8 and a
  Go string and a Lean string hold the same sequence of code points.
* A Go `error` is represented by the text its `Error()` method returns.
* The Drive client is an argument: `drive.NewService` either fails or yields a `Service`
  whose two operations (`Files.Get(..).Do()`, `Files.List().Q(..).Do()`) either fail or
  return the fetched value.  Every function that talks to the provider returns, next to
  its Go result, the list of provider calls it made, in order.
* The two regular expressions of `extractIdFromLink` have the shape `lit([class]+)`; the
  handler's third one is the bare literal `/folders/`.  `findStringSubmatch` and
  `matchString` give Go's leftmost-first semantics for exactly these shapes.
-/

namespace Goo

/-! ## Data model -/

/-- Go `error`: the text returned by its `Error()` method. -/
abbrev GoError := String

/-- The fields of `drive.File` the program requests (`id`, `mimeType`). -/
structure File where
  id : String
  mimeType : String
deriving DecidableEq, Repr

/-- What `drive.NewService` returns on success: the two operations `main.go` uses. -/
structure Service where
  /-- The call `srv.Files.Get(fileId).Fields("mimeType").Do()`. -/
  filesGet : String → Except GoError File
  /-- The call `srv.Files.List().Q(q).Fields("files(id, mimeType)").Do()`: the `Files` of
  the answer. -/
  filesList : String → Except GoError (List File)

/-- A call made to the provider. -/
inductive Call where
  | newService
  | filesGet (fileId : String)
  | filesList (q : String)
deriving DecidableEq, Repr

/-- The JSON body bound by `c.ShouldBindJSON(&request)`; an absent field is the empty string. -/
structure Request where
  link : String
  type : String
deriving DecidableEq, Repr

/-- What `c.JSON(status, gin.H{key: value})` writes. -/
structure Response where
  status : Nat
  body : List (String × String)
deriving DecidableEq, Repr

/-! ## `mimeTypes` and string helpers -/

/-- The global map `mimeTypes`; `none` is Go's `ok == false`. -/
def mimeTypes (k : String) : Option String :=
  if k = "pdf" then some "application/pdf"
  else if k = "image" then some "image/"
  else if k = "video" then some "video/"
  else none

/-- Go's `mimeTypes[k]`: the zero value `""` for an absent key. -/
def mimeTypesAt (k : String) : String :=
  (mimeTypes k).getD ""

/-- Go's `strings.HasPrefix(s, pre)`. -/
def hasPrefix (s pre : String) : Bool :=
  pre.data.isPrefixOf s.data

/-! ## The regular expressions -/

/-- The character class `[a-zA-Z0-9-_]`: the ranges `a-z`, `A-Z`, `0-9`, then the two
single characters `-` and `_` (after the range `0-9` the `-` starts no new range). -/
def idClass (c : Char) : Bool :=
  (decide ('a' ≤ c) && decide (c ≤ 'z')) ||
  (decide ('A' ≤ c) && decide (c ≤ 'Z')) ||
  (decide ('0' ≤ c) && decide (c ≤ '9')) ||
  c == '-' || c == '_'

/-- A match of `lit([class]+)` anchored at the start of `s`: the literal, then the greedy
(longest) non-empty run of class characters.  Returns the captured run. -/
def matchAt (lit : List Char) (cls : Char → Bool) (s : List Char) : Option (List Char) :=
  if lit.isPrefixOf s then
    let run := (s.drop lit.length).takeWhile cls
    if run.isEmpty then none else some run
  else none

/-- The capture of the leftmost match of `lit([class]+)` in `s`: start offsets are tried
from left to right. -/
def findCapture (lit : List Char) (cls : Char → Bool) : List Char → Option (List Char)
  | [] => matchAt lit cls []
  | c :: cs =>
    match matchAt lit cls (c :: cs) with
    | some run => some run
    | none => findCapture lit cls cs

/-- Go's `regexp.MustCompile(lit + "([class]+)").FindStringSubmatch(s)`: the slice
`[whole match, group 1]`, or the nil slice when there is no match. -/
def findStringSubmatch (lit : String) (cls : Char → Bool) (s : String) : List String :=
  match findCapture lit.data cls s.data with
  | some run => [lit ++ String.mk run, String.mk run]
  | none => []

/-- Go's `regexp.MustCompile(lit).MatchString(s)` for a literal pattern: `lit` occurs in `s`. -/
def matchString (lit : String) (s : String) : Bool :=
  s.data.tails.any (fun t => lit.data.isPrefixOf t)

/-! ## `main.go` -/

/-- The function `extractIdFromLink` (main.go:149-160). -/
def extractIdFromLink (link : String) : String :=
  let fileIdMatch := findStringSubmatch "/d/" idClass link
  if fileIdMatch.length > 1 then fileIdMatch.getD 1 ""
  else
    let folderIdMatch := findStringSubmatch "/folders/" idClass link
    if folderIdMatch.length > 1 then folderIdMatch.getD 1 ""
    else ""

/-- The function `isDownloadable` (main.go:88-109), with the provider calls it made. -/
def isDownloadable (newService : Except GoError Service) (fileId fileType : String) :
    Except GoError Bool × List Call :=
  match newService with
  | .error err => (.error ("unable to create Drive service: " ++ err), [Call.newService])
  | .ok srv =>
    match srv.filesGet fileId with
    | .error err =>
      (.error ("unable to get file: " ++ err), [Call.newService, Call.filesGet fileId])
    | .ok file =>
      (.ok (
        if fileType = "pdf" then file.mimeType == mimeTypesAt "pdf"
        else if fileType = "image" then hasPrefix file.mimeType (mimeTypesAt "image")
        else if fileType = "video" then hasPrefix file.mimeType (mimeTypesAt "video")
        else false),
       [Call.newService, Call.filesGet fileId])

/-- The `for _, file := range files.Files` loop of `checkFolder` (main.go:129-146): `true`
at the first child whose case of the `switch` returns, `false` after the last child. -/
def checkFolderLoop (fileType : String) : List File → Bool
  | [] => false
  | file :: rest =>
    if fileType = "pdf" then
      if file.mimeType == mimeTypesAt "pdf" then true else checkFolderLoop fileType rest
    else if fileType = "image" then
      if hasPrefix file.mimeType (mimeTypesAt "image") then true
      else checkFolderLoop fileType rest
    else if fileType = "video" then
      if hasPrefix file.mimeType (mimeTypesAt "video") then true
      else checkFolderLoop fileType rest
    else checkFolderLoop fileType rest

/-- The query `fmt.Sprintf("'%s' in parents", folderId)`. -/
def folderQuery (folderId : String) : String :=
  "'" ++ folderId ++ "' in parents"

/-- The function `checkFolder` (main.go:111-147), with the provider calls it made. -/
def checkFolder (newService : Except GoError Service) (folderId fileType : String) :
    Except GoError Bool × List Call :=
  match newService with
  | .error err => (.error ("unable to create Drive service: " ++ err), [Call.newService])
  | .ok srv =>
    match srv.filesList (folderQuery folderId) with
    | .error err =>
      (.error ("unable to list files: " ++ err),
       [Call.newService, Call.filesList (folderQuery folderId)])
    | .ok files =>
      (.ok (if files.length = 0 then false else checkFolderLoop fileType files),
       [Call.newService, Call.filesList (folderQuery folderId)])

/-- The end of `checkDownloadableHandler` (main.go:75-85): render the helper's result. -/
def respond (r : Except GoError Bool × List Call) : Response × List Call :=
  match r.1 with
  | .error err => (⟨500, [("error", err)]⟩, r.2)
  | .ok downloadable => (⟨200, [("result", if downloadable then "yes" else "no")]⟩, r.2)

/-- The function `checkDownloadableHandler` (main.go:43-86).  `bound` is the outcome
of `c.ShouldBindJSON(&request)`: `none` when binding fails.  Returns the response written and
the provider calls made. -/
def checkDownloadableHandler (newService : Except GoError Service) (bound : Option Request) :
    Response × List Call :=
  match bound with
  | none => (⟨400, [("error", "Invalid parameters")]⟩, [])
  | some request =>
    if (mimeTypes request.type).isNone then (⟨400, [("error", "Invalid type")]⟩, [])
    else
      let id := extractIdFromLink request.link
      if id = "" then (⟨400, [("error", "Invalid link format")]⟩, [])
      else
        let isFolder := matchString "/folders/" request.link
        if isFolder then respond (checkFolder newService id request.type)
        else respond (isDownloadable newService id request.type)

/-! ## Vocabulary of the specification -/

/-- In `s`, right after the prefix `pre`, stands `lit` immediately followed by an
identifier character: the pattern `lit([a-zA-Z0-9-_]+)` matches at offset `pre.length`. -/
def MatchesAt (lit s pre : List Char) : Prop :=
  ∃ c post, s = pre ++ lit ++ c :: post ∧ idClass c = true

/-- Somewhere in `s` stands `lit` immediately followed by an identifier character. -/
def PatternMatches (lit s : List Char) : Prop :=
  ∃ pre, MatchesAt lit s pre

/-- In `s`, right after the prefix `pre`, stands `lit` immediately followed by the
identifier `run`: a non-empty run of identifier characters that is maximal (what follows
it, if anything, is no identifier character). -/
def IdentAfter (lit s pre run : List Char) : Prop :=
  ∃ post, s = pre ++ lit ++ run ++ post ∧ run ≠ [] ∧ (∀ c ∈ run, idClass c = true) ∧
    (∀ c ∈ post.head?, idClass c = false)

/-- The occurrence of `lit` + identifier character after `pre` is the leftmost one in `s`. -/
def Leftmost (lit s pre : List Char) : Prop :=
  MatchesAt lit s pre ∧ ∀ pre', MatchesAt lit s pre' → pre.length ≤ pre'.length

/-- The classifier of the specification: a document needs the exact content type
`application/pdf`, an image a content type starting with `image/`, a video one starting
with `video/`. -/
def Accepts (type contentType : String) : Prop :=
  (type = "pdf" ∧ contentType = "application/pdf") ∨
  (type = "image" ∧ "image/".data <+: contentType.data) ∨
  (type = "video" ∧ "video/".data <+: contentType.data)

instance (type contentType : String) : Decidable (Accepts type contentType) := by
  unfold Accepts; infer_instance

/-- The request type is one of `"pdf"`, `"image"`, `"video"`. -/
def Recognised (type : String) : Prop :=
  type = "pdf" ∨ type = "image" ∨ type = "video"

instance (type : String) : Decidable (Recognised type) := by
  unfold Recognised; infer_instance

/-! ## Concrete providers -/

/-- A provider where every identifier is a PDF file and every folder holds one PNG image
and one PDF. -/
def pdfService : Service where
  filesGet := fun fileId => .ok ⟨fileId, "application/pdf"⟩
  filesList := fun _ => .ok [⟨"c1", "image/png"⟩, ⟨"c2", "application/pdf"⟩]

/-- A provider where every identifier is a Word document and every folder is empty. -/
def wordService : Service where
  filesGet := fun fileId => .ok ⟨fileId, "application/msword"⟩
  filesList := fun _ => .ok []

/-- A provider both of whose operations fail with the message `msg`. -/
def failingService (msg : GoError) : Service where
  filesGet := fun _ => .error msg
  filesList := fun _ => .error msg

/-! ## Lemmas on the regular expressions -/

theorem takeWhile_eq_iff (cls : Char → Bool) (t run : List Char) :
    t.takeWhile cls = run ↔
      ∃ post, t = run ++ post ∧ (∀ c ∈ run, cls c = true) ∧ (∀ c ∈ post.head?, cls c = false) := by
  induction t generalizing run with
  | nil =>
    constructor
    · intro h; subst h; exact ⟨[], by simp⟩
    · rintro ⟨post, h, -, -⟩
      have : run = [] := by
        cases run with
        | nil => rfl
        | cons a r => simp at h
      simp [this]
  | cons a t ih =>
    by_cases ha : cls a = true
    · rw [List.takeWhile_cons_of_pos ha]
      constructor
      · intro h
        subst h
        obtain ⟨post, h1, h2, h3⟩ := (ih (t.takeWhile cls)).1 rfl
        refine ⟨post, ?_, ?_, h3⟩
        · rw [List.cons_append, ← h1]
        · intro c hc
          rcases List.mem_cons.1 hc with rfl | hc
          · exact ha
          · exact h2 c hc
      · rintro ⟨post, h1, h2, h3⟩
        cases run with
        | nil =>
          simp only [List.nil_append] at h1
          subst h1
          have := h3 a (by simp)
          rw [ha] at this
          exact absurd this (by simp)
        | cons b r =>
          rw [List.cons_append, List.cons.injEq] at h1
          obtain ⟨rfl, h1⟩ := h1
          rw [(ih r).2 ⟨post, h1, fun c hc => h2 c (List.mem_cons_of_mem _ hc), h3⟩]
    · rw [List.takeWhile_cons_of_neg ha]
      constructor
      · intro h
        subst h
        exact ⟨a :: t, rfl, by simp, by simpa using ha⟩
      · rintro ⟨post, h1, h2, h3⟩
        cases run with
        | nil => rfl
        | cons b r =>
          rw [List.cons_append, List.cons.injEq] at h1
          obtain ⟨rfl, -⟩ := h1
          exact absurd (h2 a (List.mem_cons_self _ _)) ha

theorem matchAt_eq_some_iff (lit s run : List Char) :
    matchAt lit idClass s = some run ↔ IdentAfter lit s [] run := by
  unfold matchAt IdentAfter
  constructor
  · intro h
    split at h
    · rename_i hp
      have hp2 : lit <+: s := List.isPrefixOf_iff_prefix.1 hp
      obtain ⟨t, rfl⟩ := hp2
      simp only [List.drop_left] at h
      split at h
      · exact absurd h (by simp)
      · rename_i hne
        simp only [Option.some.injEq] at h
        obtain ⟨post, h1, h2, h3⟩ := (takeWhile_eq_iff idClass t run).1 h
        refine ⟨post, ?_, ?_, h2, h3⟩
        · rw [h1]; simp
        · intro e; rw [← h, ] at e; simp [e] at hne
    · exact absurd h (by simp)
  · rintro ⟨post, h1, h2, h3, h4⟩
    have hp : lit.isPrefixOf s = true := by
      rw [List.isPrefixOf_iff_prefix, h1]
      exact ⟨run ++ post, by simp⟩
    have ht : (s.drop lit.length).takeWhile idClass = run := by
      rw [takeWhile_eq_iff]
      refine ⟨post, ?_, h3, h4⟩
      rw [h1]; simp
    simp only [hp, if_true, ht]
    cases run with
    | nil => exact absurd rfl h2
    | cons a r => simp

theorem matchesAt_iff_identAfter (lit s pre : List Char) :
    MatchesAt lit s pre ↔ ∃ run, IdentAfter lit s pre run := by
  constructor
  · rintro ⟨c, post, h, hc⟩
    obtain ⟨post', h1, h2, h3⟩ :=
      (takeWhile_eq_iff idClass (c :: post) ((c :: post).takeWhile idClass)).1 rfl
    refine ⟨(c :: post).takeWhile idClass, post', ?_, ?_, h2, h3⟩
    · rw [h, List.append_assoc (pre ++ lit), ← h1]
    · rw [List.takeWhile_cons_of_pos hc]; simp
  · rintro ⟨run, post, h1, h2, h3, -⟩
    cases run with
    | nil => exact absurd rfl h2
    | cons a r =>
      exact ⟨a, r ++ post, by rw [h1]; simp, h3 a (List.mem_cons_self _ _)⟩

theorem identAfter_unique {lit s pre run run' : List Char}
    (h : IdentAfter lit s pre run) (h' : IdentAfter lit s pre run') : run = run' := by
  obtain ⟨post, h1, -, h3, h4⟩ := h
  obtain ⟨post', h1', -, h3', h4'⟩ := h'
  have e : run ++ post = run' ++ post' := by
    rw [h1, List.append_assoc (pre ++ lit), List.append_assoc (pre ++ lit)] at h1'
    exact List.append_cancel_left h1'
  have a := (takeWhile_eq_iff idClass (run ++ post) run).2 ⟨post, rfl, h3, h4⟩
  have b := (takeWhile_eq_iff idClass (run ++ post) run').2 ⟨post', e, h3', h4'⟩
  rw [← a, ← b]

theorem matchAt_eq_none_iff (lit s : List Char) :
    matchAt lit idClass s = none ↔ ¬ MatchesAt lit s [] := by
  rw [matchesAt_iff_identAfter]
  constructor
  · rintro h ⟨run, hr⟩
    rw [(matchAt_eq_some_iff lit s run).2 hr] at h
    exact absurd h (by simp)
  · intro h
    cases hm : matchAt lit idClass s with
    | none => rfl
    | some run => exact absurd ⟨run, (matchAt_eq_some_iff lit s run).1 hm⟩ h

theorem matchesAt_cons_cons (lit cs pre : List Char) (c : Char) :
    MatchesAt lit (c :: cs) (c :: pre) ↔ MatchesAt lit cs pre := by
  unfold MatchesAt
  simp only [List.cons_append, List.cons.injEq, true_and]

theorem identAfter_cons_cons (lit cs pre run : List Char) (c : Char) :
    IdentAfter lit (c :: cs) (c :: pre) run ↔ IdentAfter lit cs pre run := by
  unfold IdentAfter
  simp only [List.cons_append, List.cons.injEq, true_and]

theorem matchesAt_cons_head {lit cs pre : List Char} {c d : Char}
    (h : MatchesAt lit (c :: cs) (d :: pre)) : d = c := by
  obtain ⟨x, post, h, -⟩ := h
  simp only [List.cons_append, List.cons.injEq] at h
  exact h.1.symm

theorem not_matchesAt_nil (lit pre : List Char) : ¬ MatchesAt lit [] pre := by
  rintro ⟨c, post, h, -⟩
  have := congrArg List.length h
  simp at this
  omega

/-- What `findCapture` computes: nothing exactly when the pattern matches nowhere, and
otherwise the identifier after the leftmost match. -/
theorem findCapture_spec (lit s : List Char) :
    match findCapture lit idClass s with
    | none => ¬ PatternMatches lit s
    | some run => ∃ pre, Leftmost lit s pre ∧ IdentAfter lit s pre run := by
  induction s with
  | nil =>
    have hn : matchAt lit idClass [] = none :=
      (matchAt_eq_none_iff lit []).2 (not_matchesAt_nil lit [])
    simp only [findCapture, hn]
    rintro ⟨pre, h⟩
    exact not_matchesAt_nil lit pre h
  | cons c cs ih =>
    cases hm : matchAt lit idClass (c :: cs) with
    | some run =>
      simp only [findCapture, hm]
      have hi := (matchAt_eq_some_iff lit (c :: cs) run).1 hm
      exact ⟨[], ⟨(matchesAt_iff_identAfter _ _ _).2 ⟨run, hi⟩, fun _ _ => Nat.zero_le _⟩, hi⟩
    | none =>
      have hno := (matchAt_eq_none_iff lit (c :: cs)).1 hm
      simp only [findCapture, hm]
      cases hf : findCapture lit idClass cs with
      | none =>
        rw [hf] at ih
        simp only at ih ⊢
        rintro ⟨pre, h⟩
        cases pre with
        | nil => exact hno h
        | cons d pre =>
          have := matchesAt_cons_head h
          subst this
          exact ih ⟨pre, (matchesAt_cons_cons _ _ _ _).1 h⟩
      | some run =>
        rw [hf] at ih
        simp only at ih ⊢
        obtain ⟨pre, ⟨h1, h2⟩, h3⟩ := ih
        refine ⟨c :: pre, ⟨(matchesAt_cons_cons _ _ _ _).2 h1, ?_⟩,
          (identAfter_cons_cons _ _ _ _ _).2 h3⟩
        intro pre' hp
        cases pre' with
        | nil => exact absurd hp hno
        | cons d pre' =>
          have := matchesAt_cons_head hp
          subst this
          have := h2 pre' ((matchesAt_cons_cons _ _ _ _).1 hp)
          simpa using this

theorem findCapture_eq_none_iff (lit s : List Char) :
    findCapture lit idClass s = none ↔ ¬ PatternMatches lit s := by
  have h := findCapture_spec lit s
  cases hf : findCapture lit idClass s with
  | none => rw [hf] at h; simpa using h
  | some run =>
    rw [hf] at h
    obtain ⟨pre, ⟨h1, -⟩, -⟩ := h
    simp only [reduceCtorEq, false_iff, not_not]
    exact ⟨pre, h1⟩

theorem leftmost_unique {lit s pre pre' : List Char}
    (h : Leftmost lit s pre) (h' : Leftmost lit s pre') : pre = pre' := by
  have hl : pre.length = pre'.length := Nat.le_antisymm (h.2 pre' h'.1) (h'.2 pre h.1)
  obtain ⟨c, post, e, -⟩ := h.1
  obtain ⟨c', post', e', -⟩ := h'.1
  rw [e, List.append_assoc, List.append_assoc] at e'
  exact (List.append_inj e' hl).1

theorem findCapture_eq_some_iff (lit s run : List Char) :
    findCapture lit idClass s = some run ↔
      ∃ pre, Leftmost lit s pre ∧ IdentAfter lit s pre run := by
  have h := findCapture_spec lit s
  cases hf : findCapture lit idClass s with
  | none =>
    rw [hf] at h
    simp only [reduceCtorEq, false_iff]
    rintro ⟨pre, ⟨h1, -⟩, -⟩
    exact h ⟨pre, h1⟩
  | some r =>
    rw [hf] at h
    obtain ⟨pre, hl, hi⟩ := h
    simp only [Option.some.injEq]
    constructor
    · rintro rfl; exact ⟨pre, hl, hi⟩
    · rintro ⟨pre', hl', hi'⟩
      have := leftmost_unique hl hl'
      subst this
      exact identAfter_unique hi hi'

/-! ## Lemmas on `extractIdFromLink` -/

theorem extractIdFromLink_of_file {link : String} {run : List Char}
    (h : findCapture "/d/".data idClass link.data = some run) :
    extractIdFromLink link = String.mk run := by
  simp [extractIdFromLink, findStringSubmatch, h]

theorem extractIdFromLink_of_folder {link : String} {run : List Char}
    (hd : findCapture "/d/".data idClass link.data = none)
    (h : findCapture "/folders/".data idClass link.data = some run) :
    extractIdFromLink link = String.mk run := by
  simp [extractIdFromLink, findStringSubmatch, hd, h]

theorem extractIdFromLink_of_none {link : String}
    (hd : findCapture "/d/".data idClass link.data = none)
    (h : findCapture "/folders/".data idClass link.data = none) :
    extractIdFromLink link = "" := by
  simp [extractIdFromLink, findStringSubmatch, hd, h]

theorem mk_ne_empty {run : List Char} (h : run ≠ []) : String.mk run ≠ "" := by
  intro e
  exact h (congrArg String.data e)

theorem identAfter_ne_nil {lit s pre run : List Char} (h : IdentAfter lit s pre run) :
    run ≠ [] := by
  obtain ⟨_, -, h2, -⟩ := h
  exact h2

theorem identAfter_all {lit s pre run : List Char} (h : IdentAfter lit s pre run) :
    ∀ c ∈ run, idClass c = true := by
  obtain ⟨_, -, -, h3, -⟩ := h
  exact h3

/-- The three cases of `extractIdFromLink`, in the words of the specification. -/
theorem extractIdFromLink_cases (link : String) :
    (∃ pre run, Leftmost "/d/".data link.data pre ∧ IdentAfter "/d/".data link.data pre run ∧
        extractIdFromLink link = String.mk run) ∨
    (¬ PatternMatches "/d/".data link.data ∧
      ∃ pre run, Leftmost "/folders/".data link.data pre ∧
        IdentAfter "/folders/".data link.data pre run ∧
        extractIdFromLink link = String.mk run) ∨
    (¬ PatternMatches "/d/".data link.data ∧ ¬ PatternMatches "/folders/".data link.data ∧
      extractIdFromLink link = "") := by
  cases hd : findCapture "/d/".data idClass link.data with
  | some run =>
    obtain ⟨pre, hl, hi⟩ := (findCapture_eq_some_iff _ _ _).1 hd
    exact Or.inl ⟨pre, run, hl, hi, extractIdFromLink_of_file hd⟩
  | none =>
    have hnd := (findCapture_eq_none_iff _ _).1 hd
    cases hf : findCapture "/folders/".data idClass link.data with
    | some run =>
      obtain ⟨pre, hl, hi⟩ := (findCapture_eq_some_iff _ _ _).1 hf
      exact Or.inr (Or.inl ⟨hnd, pre, run, hl, hi, extractIdFromLink_of_folder hd hf⟩)
    | none =>
      exact Or.inr (Or.inr ⟨hnd, (findCapture_eq_none_iff _ _).1 hf,
        extractIdFromLink_of_none hd hf⟩)

theorem extractIdFromLink_eq_empty_iff (link : String) :
    extractIdFromLink link = "" ↔
      ¬ PatternMatches "/d/".data link.data ∧ ¬ PatternMatches "/folders/".data link.data := by
  rcases extractIdFromLink_cases link with ⟨pre, run, hl, hi, e⟩ | ⟨hnd, pre, run, hl, hi, e⟩ |
    ⟨hnd, hnf, e⟩
  · constructor
    · intro h
      rw [e] at h
      exact absurd h (mk_ne_empty (identAfter_ne_nil hi))
    · rintro ⟨h, -⟩
      exact absurd ⟨pre, hl.1⟩ h
  · constructor
    · intro h
      rw [e] at h
      exact absurd h (mk_ne_empty (identAfter_ne_nil hi))
    · rintro ⟨-, h⟩
      exact absurd ⟨pre, hl.1⟩ h
  · exact ⟨fun _ => ⟨hnd, hnf⟩, fun _ => e⟩

theorem extractIdFromLink_all (link : String) :
    ∀ c ∈ (extractIdFromLink link).data, idClass c = true := by
  rcases extractIdFromLink_cases link with ⟨pre, run, hl, hi, e⟩ | ⟨hnd, pre, run, hl, hi, e⟩ |
    ⟨hnd, hnf, e⟩
  · rw [e]; exact identAfter_all hi
  · rw [e]; exact identAfter_all hi
  · rw [e]; intro c hc; simp at hc

theorem matchString_iff (lit s : String) :
    matchString lit s = true ↔ lit.data <:+: s.data := by
  unfold matchString
  rw [List.any_eq_true, List.infix_iff_prefix_suffix]
  constructor
  · rintro ⟨t, ht, hp⟩
    exact ⟨t, List.isPrefixOf_iff_prefix.1 hp, (List.mem_tails _ _).1 ht⟩
  · rintro ⟨t, hp, ht⟩
    exact ⟨t, (List.mem_tails _ _).2 ht, List.isPrefixOf_iff_prefix.2 hp⟩

theorem identAfter_occurs {lit s pre run : List Char} (h : IdentAfter lit s pre run) :
    lit <:+: s := by
  obtain ⟨post, h1, -⟩ := h
  exact ⟨pre, run ++ post, by rw [h1]; simp⟩

/-! ## Lemmas on the handler -/

theorem mimeTypes_isNone_iff (type : String) :
    (mimeTypes type).isNone = true ↔ ¬ Recognised type := by
  unfold mimeTypes Recognised
  by_cases h1 : type = "pdf"
  · simp [h1]
  · by_cases h2 : type = "image"
    · simp [h2]
    · by_cases h3 : type = "video"
      · simp [h3]
      · simp [h1, h2, h3]

theorem handler_dispatch (newService : Except GoError Service) (req : Request)
    (ht : Recognised req.type) (hid : extractIdFromLink req.link ≠ "") :
    checkDownloadableHandler newService (some req) =
      if matchString "/folders/" req.link = true then
        respond (checkFolder newService (extractIdFromLink req.link) req.type)
      else respond (isDownloadable newService (extractIdFromLink req.link) req.type) := by
  have h : ¬ (mimeTypes req.type).isNone = true := by
    rw [mimeTypes_isNone_iff]; exact not_not.2 ht
  simp [checkDownloadableHandler, h, hid]

theorem hasPrefix_iff (s pre : String) : hasPrefix s pre = true ↔ pre.data <+: s.data := by
  unfold hasPrefix
  exact List.isPrefixOf_iff_prefix

/-- The `switch` of `isDownloadable` and of the loop body agrees with the classifier. -/
theorem classify_eq (type m : String) :
    (if type = "pdf" then m == mimeTypesAt "pdf"
      else if type = "image" then hasPrefix m (mimeTypesAt "image")
      else if type = "video" then hasPrefix m (mimeTypesAt "video")
      else false) = decide (Accepts type m) := by
  have e1 : mimeTypesAt "pdf" = "application/pdf" := by decide
  have e2 : mimeTypesAt "image" = "image/" := by decide
  have e3 : mimeTypesAt "video" = "video/" := by decide
  rw [e1, e2, e3, Bool.eq_iff_iff]
  unfold Accepts
  by_cases h1 : type = "pdf"
  · subst h1; simp
  · by_cases h2 : type = "image"
    · subst h2; simp [hasPrefix_iff]
    · by_cases h3 : type = "video"
      · subst h3; simp [hasPrefix_iff]
      · simp [h1, h2, h3]

theorem checkFolderLoop_eq (type : String) (files : List File) :
    checkFolderLoop type files = decide (∃ f ∈ files, Accepts type f.mimeType) := by
  induction files with
  | nil => simp [checkFolderLoop]
  | cons f rest ih =>
    have hc := classify_eq type f.mimeType
    rw [Bool.eq_iff_iff]
    simp only [checkFolderLoop, ih, List.mem_cons, exists_eq_or_imp, decide_eq_true_eq]
    by_cases h1 : type = "pdf"
    · simp only [h1, if_true] at hc ⊢
      rw [hc]
      by_cases ha : Accepts "pdf" f.mimeType <;> simp [ha]
    · by_cases h2 : type = "image"
      · simp only [h2, if_true] at hc ⊢
        simp only [show ¬ ("image" = "pdf") by decide, if_false] at hc ⊢
        rw [hc]
        by_cases ha : Accepts "image" f.mimeType <;> simp [ha]
      · by_cases h3 : type = "video"
        · simp only [h3, if_true] at hc ⊢
          simp only [show ¬ ("video" = "pdf") by decide, show ¬ ("video" = "image") by decide,
            if_false] at hc ⊢
          rw [hc]
          by_cases ha : Accepts "video" f.mimeType <;> simp [ha]
        · simp only [h1, h2, h3, if_false] at hc ⊢
          have ha : ¬ Accepts type f.mimeType := by simpa using hc.symm
          simp [ha]

theorem isDownloadable_ok {srv : Service} {fileId : String} {file : File} (type : String)
    (h : srv.filesGet fileId = .ok file) :
    isDownloadable (.ok srv) fileId type =
      (.ok (decide (Accepts type file.mimeType)), [Call.newService, Call.filesGet fileId]) := by
  simp only [isDownloadable, h, classify_eq]

theorem isDownloadable_get_error {srv : Service} {fileId : String} {e : GoError}
    (type : String) (h : srv.filesGet fileId = .error e) :
    isDownloadable (.ok srv) fileId type =
      (.error ("unable to get file: " ++ e), [Call.newService, Call.filesGet fileId]) := by
  simp only [isDownloadable, h]

theorem checkFolder_ok {srv : Service} {folderId : String} {files : List File} (type : String)
    (h : srv.filesList (folderQuery folderId) = .ok files) :
    checkFolder (.ok srv) folderId type =
      (.ok (decide (∃ f ∈ files, Accepts type f.mimeType)),
        [Call.newService, Call.filesList (folderQuery folderId)]) := by
  simp only [checkFolder, h, checkFolderLoop_eq]
  cases files with
  | nil => simp
  | cons f rest => simp

theorem checkFolder_list_error {srv : Service} {folderId : String} {e : GoError}
    (type : String) (h : srv.filesList (folderQuery folderId) = .error e) :
    checkFolder (.ok srv) folderId type =
      (.error ("unable to list files: " ++ e),
        [Call.newService, Call.filesList (folderQuery folderId)]) := by
  simp only [checkFolder, h]

theorem append_ne_empty {a : String} (b : String) (h : a.data ≠ []) : a ++ b ≠ "" := by
  intro e
  have := congrArg String.data e
  rw [String.data_append] at this
  simp at this
  exact h this.1

theorem matchString_false_iff (lit s : String) :
    matchString lit s = false ↔ ¬ lit.data <:+: s.data := by
  rw [← matchString_iff, Bool.not_eq_true]

/-! ## The link parser -/

/-- C9: `extractIdFromLink` tries the file pattern first and the folder pattern only when
the file pattern is absent.  If some `/d/` is followed by an identifier character, the
result is the maximal identifier run after the leftmost such `/d/`, whatever stands before
it; otherwise, if some `/folders/` is followed by an identifier character, the result is
the maximal identifier run after the leftmost such `/folders/`; otherwise the result is
the empty string.  The result is empty if and only if neither pattern matches. -/
theorem extractIdFromLink_file_then_folder (link : String) :
    (PatternMatches "/d/".data link.data →
      (∃ pre run, Leftmost "/d/".data link.data pre ∧
        IdentAfter "/d/".data link.data pre run ∧ extractIdFromLink link = String.mk run) ∧
      (∀ pre run, Leftmost "/d/".data link.data pre →
        IdentAfter "/d/".data link.data pre run → extractIdFromLink link = String.mk run)) ∧
    (¬ PatternMatches "/d/".data link.data → PatternMatches "/folders/".data link.data →
      (∃ pre run, Leftmost "/folders/".data link.data pre ∧
        IdentAfter "/folders/".data link.data pre run ∧
        extractIdFromLink link = String.mk run) ∧
      (∀ pre run, Leftmost "/folders/".data link.data pre →
        IdentAfter "/folders/".data link.data pre run →
        extractIdFromLink link = String.mk run)) ∧
    (¬ PatternMatches "/d/".data link.data → ¬ PatternMatches "/folders/".data link.data →
      extractIdFromLink link = "") ∧
    (extractIdFromLink link = "" ↔
      ¬ PatternMatches "/d/".data link.data ∧ ¬ PatternMatches "/folders/".data link.data) := by
  refine ⟨?_, ?_, ?_, extractIdFromLink_eq_empty_iff link⟩
  · intro hm
    rcases extractIdFromLink_cases link with ⟨pre, run, hl, hi, e⟩ | ⟨hnd, -⟩ | ⟨hnd, -⟩
    · refine ⟨⟨pre, run, hl, hi, e⟩, ?_⟩
      intro pre' run' hl' hi'
      have := leftmost_unique hl hl'
      subst this
      rw [e, identAfter_unique hi hi']
    · exact absurd hm hnd
    · exact absurd hm hnd
  · intro hnd hm
    rcases extractIdFromLink_cases link with ⟨pre, run, hl, hi, e⟩ | ⟨-, pre, run, hl, hi, e⟩ |
      ⟨-, hnf, -⟩
    · exact absurd ⟨pre, hl.1⟩ hnd
    · refine ⟨⟨pre, run, hl, hi, e⟩, ?_⟩
      intro pre' run' hl' hi'
      have := leftmost_unique hl hl'
      subst this
      rw [e, identAfter_unique hi hi']
    · exact absurd hm hnf
  · intro hnd hnf
    exact (extractIdFromLink_eq_empty_iff link).2 ⟨hnd, hnf⟩

/-- C9, at the link `/folders/x/d/abc`: the file pattern matches after `/folders/x`, so
the result is the run after the leftmost `/d/`, although a folder pattern stands before. -/
theorem extractIdFromLink_file_then_folder_witness :
    PatternMatches "/d/".data "/folders/x/d/abc".data ∧
    ∃ pre run, Leftmost "/d/".data "/folders/x/d/abc".data pre ∧
      IdentAfter "/d/".data "/folders/x/d/abc".data pre run ∧
      extractIdFromLink "/folders/x/d/abc" = String.mk run :=
  have hm : PatternMatches "/d/".data "/folders/x/d/abc".data :=
    ⟨"/folders/x".data, 'a', "bc".data, by decide, by decide⟩
  ⟨hm, ((extractIdFromLink_file_then_folder "/folders/x/d/abc").1 hm).1⟩

/-- C10: for every link the string returned by `extractIdFromLink` consists only of
characters from a-z, A-Z, 0-9, `-` and `_`.  Every identifier `checkDownloadableHandler`
passes to the provider is that string, is non-empty and contains no single quote
(code point 39), backslash (code point 92), space or slash; the folder query is
`'<id>' in parents` and contains exactly two single quotes. -/
theorem extractIdFromLink_identifier_safe (newService : Except GoError Service)
    (req : Request) :
    (∀ c ∈ (extractIdFromLink req.link).data,
      ('a' ≤ c ∧ c ≤ 'z') ∨ ('A' ≤ c ∧ c ≤ 'Z') ∨ ('0' ≤ c ∧ c ≤ '9') ∨ c = '-' ∨ c = '_') ∧
    (∀ call ∈ (checkDownloadableHandler newService (some req)).2,
      call = Call.newService ∨
      ∃ id : String,
        (call = Call.filesGet id ∨ call = Call.filesList ("\x27" ++ id ++ "\x27 in parents")) ∧
        id = extractIdFromLink req.link ∧ id ≠ "" ∧
        Char.ofNat 39 ∉ id.data ∧ Char.ofNat 92 ∉ id.data ∧ ' ' ∉ id.data ∧ '/' ∉ id.data ∧
        ("\x27" ++ id ++ "\x27 in parents").data.count (Char.ofNat 39) = 2) := by
  have hall := extractIdFromLink_all req.link
  have hcls : ∀ c, idClass c = true →
      (('a' ≤ c ∧ c ≤ 'z') ∨ ('A' ≤ c ∧ c ≤ 'Z') ∨ ('0' ≤ c ∧ c ≤ '9') ∨ c = '-' ∨ c = '_') := by
    intro c hc
    simpa [idClass, or_assoc] using hc
  have hnot : ∀ c, idClass c = false → c ∉ (extractIdFromLink req.link).data := by
    intro c hc hmem
    rw [hall c hmem] at hc
    exact absurd hc (by simp)
  refine ⟨fun c hc => hcls c (hall c hc), ?_⟩
  intro call hcall
  by_cases ht : Recognised req.type
  swap
  · have : (mimeTypes req.type).isNone = true := (mimeTypes_isNone_iff _).2 ht
    simp [checkDownloadableHandler, this] at hcall
  by_cases hid : extractIdFromLink req.link = ""
  · have h : ¬ (mimeTypes req.type).isNone = true := by
      rw [mimeTypes_isNone_iff]; exact not_not.2 ht
    simp [checkDownloadableHandler, h, hid] at hcall
  have hq : ("\x27" ++ extractIdFromLink req.link ++ "\x27 in parents").data.count
      (Char.ofNat 39) = 2 := by
    have h0 : (extractIdFromLink req.link).data.count (Char.ofNat 39) = 0 :=
      List.count_eq_zero.2 (hnot _ (by decide))
    rw [String.data_append, String.data_append, List.count_append, List.count_append, h0]
    decide
  have hsafe : ∃ id : String, id = extractIdFromLink req.link ∧ id ≠ "" ∧
      Char.ofNat 39 ∉ id.data ∧ Char.ofNat 92 ∉ id.data ∧ ' ' ∉ id.data ∧ '/' ∉ id.data ∧
      ("\x27" ++ id ++ "\x27 in parents").data.count (Char.ofNat 39) = 2 :=
    ⟨_, rfl, hid, hnot _ (by decide), hnot _ (by decide), hnot _ (by decide),
      hnot _ (by decide), hq⟩
  obtain ⟨id, hide, h1, h2, h3, h4, h5, h6⟩ := hsafe
  rw [handler_dispatch newService req ht hid] at hcall
  have hcalls : call = Call.newService ∨ call = Call.filesGet (extractIdFromLink req.link) ∨
      call = Call.filesList (folderQuery (extractIdFromLink req.link)) := by
    split at hcall
    · cases newService with
      | error e => simp [respond, checkFolder] at hcall; exact Or.inl hcall
      | ok srv =>
        cases hl : srv.filesList (folderQuery (extractIdFromLink req.link)) with
        | error e =>
          rw [checkFolder_list_error _ hl] at hcall
          simp [respond] at hcall
          rcases hcall with h | h
          · exact Or.inl h
          · exact Or.inr (Or.inr h)
        | ok files =>
          rw [checkFolder_ok _ hl] at hcall
          simp [respond] at hcall
          rcases hcall with h | h
          · exact Or.inl h
          · exact Or.inr (Or.inr h)
    · cases newService with
      | error e => simp [respond, isDownloadable] at hcall; exact Or.inl hcall
      | ok srv =>
        cases hl : srv.filesGet (extractIdFromLink req.link) with
        | error e =>
          rw [isDownloadable_get_error _ hl] at hcall
          simp [respond] at hcall
          rcases hcall with h | h
          · exact Or.inl h
          · exact Or.inr (Or.inl h)
        | ok file =>
          rw [isDownloadable_ok _ hl] at hcall
          simp [respond] at hcall
          rcases hcall with h | h
          · exact Or.inl h
          · exact Or.inr (Or.inl h)
  rcases hcalls with h | h | h
  · exact Or.inl h
  · exact Or.inr ⟨id, Or.inl (by rw [h, hide]), hide, h1, h2, h3, h4, h5, h6⟩
  · exact Or.inr ⟨id, Or.inr (by rw [h, hide]; rfl), hide, h1, h2, h3, h4, h5, h6⟩

/-! ## File mode and folder mode -/

/-- C1 as stated fails.  In `/d/a/d/b` the identifier `b` follows the second `/d/`, yet
`extractIdFromLink` returns `a`, the run after the first.  In `/folders/x/d/abc` the
identifier `abc` follows `/d/` and is what `extractIdFromLink` returns, yet the handler
lists the folder `abc` instead of looking the file up. -/
theorem file_link_counterexample :
    (IdentAfter "/d/".data "/d/a/d/b".data "/d/a".data "b".data ∧
      extractIdFromLink "/d/a/d/b" = "a" ∧ extractIdFromLink "/d/a/d/b" ≠ "b") ∧
    (IdentAfter "/d/".data "/folders/x/d/abc".data "/folders/x".data "abc".data ∧
      extractIdFromLink "/folders/x/d/abc" = "abc" ∧
      checkDownloadableHandler (.ok pdfService) (some ⟨"/folders/x/d/abc", "pdf"⟩) =
        (⟨200, [("result", "yes")]⟩, [Call.newService, Call.filesList "\x27abc\x27 in parents"]) ∧
      checkDownloadableHandler (.ok pdfService) (some ⟨"/folders/x/d/abc", "pdf"⟩) ≠
        respond (isDownloadable (.ok pdfService) "abc" "pdf")) :=
  ⟨⟨⟨[], by decide, by decide, by decide, by decide⟩, by decide, by decide⟩,
    ⟨[], by decide, by decide, by decide, by decide⟩, by decide, by decide, by decide⟩

/-- C1 (amended): when the leftmost `/d/` followed by an identifier character is followed
by the identifier `run`, `extractIdFromLink` returns exactly `run`; if moreover the type is
recognised and the link does not contain `/folders/`, `checkDownloadableHandler` resolves
the request in file mode: its outcome is that of `isDownloadable` on `run`, and it lists
no folder. -/
theorem file_link_resolves_in_file_mode (newService : Except GoError Service) (req : Request)
    (pre run : List Char) (hl : Leftmost "/d/".data req.link.data pre)
    (hi : IdentAfter "/d/".data req.link.data pre run) :
    extractIdFromLink req.link = String.mk run ∧
    (Recognised req.type → ¬ "/folders/".data <:+: req.link.data →
      checkDownloadableHandler newService (some req) =
        respond (isDownloadable newService (String.mk run) req.type) ∧
      ∀ q, Call.filesList q ∉ (checkDownloadableHandler newService (some req)).2) := by
  have he : extractIdFromLink req.link = String.mk run := by
    obtain ⟨pre', hl', hi'⟩ : ∃ p, Leftmost "/d/".data req.link.data p ∧
        IdentAfter "/d/".data req.link.data p run := ⟨pre, hl, hi⟩
    exact extractIdFromLink_of_file ((findCapture_eq_some_iff _ _ _).2 ⟨pre', hl', hi'⟩)
  refine ⟨he, ?_⟩
  intro ht hnf
  have hid : extractIdFromLink req.link ≠ "" := by
    rw [he]; exact mk_ne_empty (identAfter_ne_nil hi)
  have hm : ¬ matchString "/folders/" req.link = true := by
    rw [matchString_iff]; exact hnf
  have hd := handler_dispatch newService req ht hid
  rw [if_neg hm, he] at hd
  refine ⟨hd, ?_⟩
  rw [hd]
  intro q hq
  cases newService with
  | error e => simp [respond, isDownloadable] at hq
  | ok srv =>
    cases hg : srv.filesGet (String.mk run) with
    | error e =>
      rw [isDownloadable_get_error _ hg] at hq
      simp [respond] at hq
    | ok file =>
      rw [isDownloadable_ok _ hg] at hq
      simp [respond] at hq

/-- C1 (amended), at the link `https://drive.google.com/file/d/1aB-_9/view` with type
`pdf` and a provider that knows the file as a PDF. -/
theorem file_link_resolves_in_file_mode_witness :
    extractIdFromLink "https://drive.google.com/file/d/1aB-_9/view" = "1aB-_9" ∧
    checkDownloadableHandler (.ok pdfService)
        (some ⟨"https://drive.google.com/file/d/1aB-_9/view", "pdf"⟩) =
      (⟨200, [("result", "yes")]⟩, [Call.newService, Call.filesGet "1aB-_9"]) := by
  obtain ⟨pre, hl, hi⟩ := (findCapture_eq_some_iff "/d/".data
    "https://drive.google.com/file/d/1aB-_9/view".data "1aB-_9".data).1 (by decide)
  have h := file_link_resolves_in_file_mode (.ok pdfService)
    ⟨"https://drive.google.com/file/d/1aB-_9/view", "pdf"⟩ pre "1aB-_9".data hl hi
  refine ⟨h.1, ?_⟩
  rw [(h.2 (by decide) ((matchString_false_iff _ _).1 (by decide))).1]
  decide

/-- C2 as stated fails.  In `https://host/folders/abc/d/xyz` the identifier `abc` follows
`/folders/`, yet `extractIdFromLink` returns `xyz` (the file pattern is tried first) and
the handler lists the folder `xyz`, not `abc`. -/
theorem folder_link_counterexample :
    IdentAfter "/folders/".data "https://host/folders/abc/d/xyz".data "https://host".data
      "abc".data ∧
    extractIdFromLink "https://host/folders/abc/d/xyz" = "xyz" ∧
    extractIdFromLink "https://host/folders/abc/d/xyz" ≠ "abc" ∧
    checkDownloadableHandler (.ok pdfService) (some ⟨"https://host/folders/abc/d/xyz", "pdf"⟩) =
      (⟨200, [("result", "yes")]⟩, [Call.newService, Call.filesList "\x27xyz\x27 in parents"]) ∧
    checkDownloadableHandler (.ok pdfService) (some ⟨"https://host/folders/abc/d/xyz", "pdf"⟩) ≠
      respond (checkFolder (.ok pdfService) "abc" "pdf") :=
  ⟨⟨"/d/xyz".data, by decide, by decide, by decide, by decide⟩, by decide, by decide,
    by decide, by decide⟩

/-- C2 (amended): when the link contains `/folders/` immediately followed by an identifier
`run` and the type is recognised, `checkDownloadableHandler` resolves the request in
folder mode, calling `checkFolder` with the identifier `extractIdFromLink` returns; that
identifier is `run` when no `/d/` followed by an identifier character occurs in the link
and the occurrence is the leftmost `/folders/` followed by an identifier character. -/
theorem folder_link_resolves_in_folder_mode (newService : Except GoError Service)
    (req : Request) (pre run : List Char)
    (hi : IdentAfter "/folders/".data req.link.data pre run) :
    (Recognised req.type →
      checkDownloadableHandler newService (some req) =
        respond (checkFolder newService (extractIdFromLink req.link) req.type)) ∧
    (¬ PatternMatches "/d/".data req.link.data → Leftmost "/folders/".data req.link.data pre →
      extractIdFromLink req.link = String.mk run) := by
  constructor
  · intro ht
    have hid : extractIdFromLink req.link ≠ "" := by
      rw [Ne, extractIdFromLink_eq_empty_iff]
      rintro ⟨-, hnf⟩
      exact hnf ⟨pre, (matchesAt_iff_identAfter _ _ _).2 ⟨run, hi⟩⟩
    have hm : matchString "/folders/" req.link = true :=
      (matchString_iff _ _).2 (identAfter_occurs hi)
    rw [handler_dispatch newService req ht hid, if_pos hm]
  · intro hnd hl
    exact extractIdFromLink_of_folder ((findCapture_eq_none_iff _ _).2 hnd)
      ((findCapture_eq_some_iff _ _ _).2 ⟨pre, hl, hi⟩)

/-- C2 (amended), at the link `https://drive.google.com/drive/folders/F0_x-1?usp=sharing`
with type `image`: the handler lists the folder `F0_x-1`. -/
theorem folder_link_resolves_in_folder_mode_witness :
    extractIdFromLink "https://drive.google.com/drive/folders/F0_x-1?usp=sharing" = "F0_x-1" ∧
    checkDownloadableHandler (.ok pdfService)
        (some ⟨"https://drive.google.com/drive/folders/F0_x-1?usp=sharing", "image"⟩) =
      (⟨200, [("result", "yes")]⟩,
        [Call.newService, Call.filesList "\x27F0_x-1\x27 in parents"]) := by
  obtain ⟨pre, hl, hi⟩ := (findCapture_eq_some_iff "/folders/".data
    "https://drive.google.com/drive/folders/F0_x-1?usp=sharing".data "F0_x-1".data).1
    (by decide)
  have h := folder_link_resolves_in_folder_mode (.ok pdfService)
    ⟨"https://drive.google.com/drive/folders/F0_x-1?usp=sharing", "image"⟩ pre
    "F0_x-1".data hi
  refine ⟨h.2 ((findCapture_eq_none_iff _ _).1 (by decide)) hl, ?_⟩
  rw [h.1 (by decide)]
  decide

/-! ## Answers -/

/-- C3: for a request with a recognised type that the handler resolves in file mode (the
link yields an identifier and holds no `/folders/`), if the single-file lookup succeeds
with a file of content type `m`, the handler answers 200 with `yes` exactly when the
classifier accepts `m` for the type and `no` otherwise: for `pdf` iff `m` is
`application/pdf` (so `application/msword` gives `no`), for `image` iff `m` starts with
`image/`, for `video` iff `m` starts with `video/`. -/
theorem file_mode_answer (srv : Service) (req : Request) (file : File)
    (ht : Recognised req.type) (hid : extractIdFromLink req.link ≠ "")
    (hmode : matchString "/folders/" req.link = false)
    (hget : srv.filesGet (extractIdFromLink req.link) = .ok file) :
    (checkDownloadableHandler (.ok srv) (some req)).1 =
      ⟨200, [("result", if Accepts req.type file.mimeType then "yes" else "no")]⟩ ∧
    (req.type = "pdf" →
      (Accepts req.type file.mimeType ↔ file.mimeType = "application/pdf")) ∧
    (req.type = "image" →
      (Accepts req.type file.mimeType ↔ "image/".data <+: file.mimeType.data)) ∧
    (req.type = "video" →
      (Accepts req.type file.mimeType ↔ "video/".data <+: file.mimeType.data)) ∧
    (req.type = "pdf" → file.mimeType = "application/pdf" →
      (checkDownloadableHandler (.ok srv) (some req)).1 = ⟨200, [("result", "yes")]⟩) ∧
    (req.type = "pdf" → file.mimeType = "application/msword" →
      (checkDownloadableHandler (.ok srv) (some req)).1 = ⟨200, [("result", "no")]⟩) := by
  have hm : ¬ matchString "/folders/" req.link = true := by simp [hmode]
  have hd := handler_dispatch (.ok srv) req ht hid
  rw [if_neg hm, isDownloadable_ok _ hget] at hd
  have hr : (checkDownloadableHandler (.ok srv) (some req)).1 =
      ⟨200, [("result", if Accepts req.type file.mimeType then "yes" else "no")]⟩ := by
    rw [hd]
    by_cases ha : Accepts req.type file.mimeType <;> simp [respond, ha]
  refine ⟨hr, ?_, ?_, ?_, ?_, ?_⟩
  · intro h; rw [h]; simp [Accepts]
  · intro h; rw [h]; simp [Accepts]
  · intro h; rw [h]; simp [Accepts]
  · intro h hmime
    rw [hr, h, hmime]
    decide
  · intro h hmime
    rw [hr, h, hmime]
    decide

/-- C3, at the link `https://drive.google.com/file/d/1aB-_9/view` with type `pdf` and a
provider that knows the file as a Word document: the answer is `no`. -/
theorem file_mode_answer_witness :
    (checkDownloadableHandler (.ok wordService)
        (some ⟨"https://drive.google.com/file/d/1aB-_9/view", "pdf"⟩)).1 =
      ⟨200, [("result", "no")]⟩ :=
  (file_mode_answer wordService ⟨"https://drive.google.com/file/d/1aB-_9/view", "pdf"⟩
    ⟨extractIdFromLink "https://drive.google.com/file/d/1aB-_9/view", "application/msword"⟩
    (by decide) (by decide) (by decide) rfl).2.2.2.2.2 rfl rfl

/-- C4: for a recognised type, when the folder listing succeeds with the children `files`,
`checkFolder` returns without error, `true` if and only if at least one child has a content
type the classifier accepts for the type, and the handler, in folder mode, answers 200
with `yes` or `no` accordingly.  An empty listing gives `false` for each type; children
with content types `image/png`, `application/pdf` give `false` for `video` and `true` for
`image`. -/
theorem folder_mode_answer (srv : Service) (folderId type : String) (files : List File)
    (ht : Recognised type) (hlist : srv.filesList (folderQuery folderId) = .ok files) :
    (checkFolder (.ok srv) folderId type).1 =
      .ok (decide (∃ f ∈ files, Accepts type f.mimeType)) ∧
    (∀ req : Request, req.type = type → extractIdFromLink req.link = folderId →
      folderId ≠ "" → matchString "/folders/" req.link = true →
      (checkDownloadableHandler (.ok srv) (some req)).1 =
        ⟨200, [("result", if ∃ f ∈ files, Accepts type f.mimeType then "yes" else "no")]⟩) ∧
    (files = [] → (checkFolder (.ok srv) folderId type).1 = .ok false) ∧
    (files.map File.mimeType = ["image/png", "application/pdf"] →
      (type = "video" → (checkFolder (.ok srv) folderId type).1 = .ok false) ∧
      (type = "image" → (checkFolder (.ok srv) folderId type).1 = .ok true)) := by
  have hc := checkFolder_ok type hlist
  refine ⟨by rw [hc], ?_, ?_, ?_⟩
  · intro req hty hid hne hm
    subst hty hid
    rw [handler_dispatch (.ok srv) req ht hne, if_pos hm, hc]
    by_cases ha : ∃ f ∈ files, Accepts req.type f.mimeType <;> simp [respond, ha]
  · intro hf
    rw [hc, hf]
    simp
  · intro hf
    rw [hc]
    rcases files with _ | ⟨f1, _ | ⟨f2, _ | ⟨f3, rest⟩⟩⟩
    · simp at hf
    · simp at hf
    · simp only [List.map_cons, List.map_nil, List.cons.injEq, and_true] at hf
      obtain ⟨h1, h2⟩ := hf
      constructor
      · intro hty
        subst hty
        simp only [List.mem_cons, List.mem_singleton, exists_eq_or_imp, exists_eq_left, h1, h2]
        refine congrArg Except.ok ?_
        decide
      · intro hty
        subst hty
        simp only [List.mem_cons, List.mem_singleton, exists_eq_or_imp, exists_eq_left, h1, h2]
        refine congrArg Except.ok ?_
        decide
    · simp at hf

/-- C4, at the folder `F0_x-1` of a provider whose folders hold one PNG and one PDF, for
the type `video`: `checkFolder` returns `false`, and the handler answers `no`. -/
theorem folder_mode_answer_witness :
    (checkFolder (.ok pdfService) "F0_x-1" "video").1 = .ok false ∧
    (checkDownloadableHandler (.ok pdfService)
        (some ⟨"https://drive.google.com/drive/folders/F0_x-1", "video"⟩)).1 =
      ⟨200, [("result", "no")]⟩ := by
  have h := folder_mode_answer pdfService "F0_x-1" "video"
    [⟨"c1", "image/png"⟩, ⟨"c2", "application/pdf"⟩] (by decide) rfl
  refine ⟨(h.2.2.2 rfl).1 rfl, ?_⟩
  rw [h.2.1 ⟨"https://drive.google.com/drive/folders/F0_x-1", "video"⟩ rfl (by decide)
    (by decide) (by decide)]
  decide

/-! ## Errors -/

/-- C5: for every request whose body parses and whose type is not one of `pdf`, `image`,
`video` (the empty string of a missing type included), the handler responds 400 with
error `Invalid type` whatever the link and whatever the provider, and makes no provider
call. -/
theorem invalid_type_rejected (newService : Except GoError Service) (req : Request)
    (ht : ¬ Recognised req.type) :
    checkDownloadableHandler newService (some req) =
      (⟨400, [("error", "Invalid type")]⟩, []) ∧
    ¬ Recognised "" := by
  have h : (mimeTypes req.type).isNone = true := (mimeTypes_isNone_iff _).2 ht
  refine ⟨?_, by decide⟩
  simp [checkDownloadableHandler, h]

/-- C5, at a well-formed file link with a missing type. -/
theorem invalid_type_rejected_witness :
    ¬ Recognised "" ∧
    checkDownloadableHandler (.ok pdfService)
        (some ⟨"https://drive.google.com/file/d/1aB-_9/view", ""⟩) =
      (⟨400, [("error", "Invalid type")]⟩, []) :=
  ⟨by decide, (invalid_type_rejected (.ok pdfService)
    ⟨"https://drive.google.com/file/d/1aB-_9/view", ""⟩ (by decide)).1⟩

/-- C6 as stated fails: the link `no-link-here` matches neither pattern, yet with the
unrecognised type `doc` the handler answers `Invalid type`, not `Invalid link format`. -/
theorem invalid_link_counterexample :
    ¬ PatternMatches "/d/".data "no-link-here".data ∧
    ¬ PatternMatches "/folders/".data "no-link-here".data ∧
    (checkDownloadableHandler (.ok pdfService) (some ⟨"no-link-here", "doc"⟩)).1 =
      ⟨400, [("error", "Invalid type")]⟩ ∧
    (checkDownloadableHandler (.ok pdfService) (some ⟨"no-link-here", "doc"⟩)).1 ≠
      ⟨400, [("error", "Invalid link format")]⟩ :=
  ⟨(findCapture_eq_none_iff _ _).1 (by decide), (findCapture_eq_none_iff _ _).1 (by decide),
    by decide, by decide⟩

/-- C6 (amended): for every request with a recognised type whose link matches neither the
file pattern nor the folder pattern, the handler responds 400 with error
`Invalid link format` and makes no provider call. -/
theorem invalid_link_rejected (newService : Except GoError Service) (req : Request)
    (ht : Recognised req.type)
    (hd : ¬ PatternMatches "/d/".data req.link.data)
    (hf : ¬ PatternMatches "/folders/".data req.link.data) :
    checkDownloadableHandler newService (some req) =
      (⟨400, [("error", "Invalid link format")]⟩, []) := by
  have h : ¬ (mimeTypes req.type).isNone = true := by
    rw [mimeTypes_isNone_iff]; exact not_not.2 ht
  have hid : extractIdFromLink req.link = "" := (extractIdFromLink_eq_empty_iff _).2 ⟨hd, hf⟩
  simp [checkDownloadableHandler, h, hid]

/-- C6 (amended), at the link `https://drive.google.com/drive/folders/` (no identifier
after the folder marker) with type `pdf`. -/
theorem invalid_link_rejected_witness :
    checkDownloadableHandler (.ok pdfService)
        (some ⟨"https://drive.google.com/drive/folders/", "pdf"⟩) =
      (⟨400, [("error", "Invalid link format")]⟩, []) :=
  invalid_link_rejected (.ok pdfService) ⟨"https://drive.google.com/drive/folders/", "pdf"⟩
    (by decide) ((findCapture_eq_none_iff _ _).1 (by decide))
    ((findCapture_eq_none_iff _ _).1 (by decide))

/-- C7 as stated fails: when the single-file lookup fails with `notFound`, the error in
the 500 response is `unable to get file: notFound`, and when the folder listing fails with
`notFound` it is `unable to list files: notFound`; neither is the provider's message
alone. -/
theorem provider_error_counterexample :
    ((failingService "notFound").filesGet "1aB-_9" = .error "notFound" ∧
      (checkDownloadableHandler (.ok (failingService "notFound"))
          (some ⟨"https://drive.google.com/file/d/1aB-_9/view", "pdf"⟩)).1 =
        ⟨500, [("error", "unable to get file: notFound")]⟩ ∧
      (checkDownloadableHandler (.ok (failingService "notFound"))
          (some ⟨"https://drive.google.com/file/d/1aB-_9/view", "pdf"⟩)).1 ≠
        ⟨500, [("error", "notFound")]⟩) ∧
    ((failingService "notFound").filesList "\x27F0_x-1\x27 in parents" = .error "notFound" ∧
      (checkDownloadableHandler (.ok (failingService "notFound"))
          (some ⟨"https://drive.google.com/drive/folders/F0_x-1", "pdf"⟩)).1 =
        ⟨500, [("error", "unable to list files: notFound")]⟩ ∧
      (checkDownloadableHandler (.ok (failingService "notFound"))
          (some ⟨"https://drive.google.com/drive/folders/F0_x-1", "pdf"⟩)).1 ≠
        ⟨500, [("error", "notFound")]⟩) :=
  ⟨⟨rfl, by decide, by decide⟩, rfl, by decide, by decide⟩

/-- C7 (amended): for every request with a recognised type and a link that yields an
identifier, if the provider call fails with message `e`, the handler responds 500 and the
error in the body is `e` behind a fixed prefix: `unable to get file: ` for the single-file
lookup in file mode, `unable to list files: ` for the folder listing in folder mode, and
`unable to create Drive service: ` when the client itself cannot be built. -/
theorem provider_error_prefixed (newService : Except GoError Service) (req : Request)
    (ht : Recognised req.type) (hid : extractIdFromLink req.link ≠ "") :
    (∀ srv e, newService = .ok srv → matchString "/folders/" req.link = false →
      srv.filesGet (extractIdFromLink req.link) = .error e →
      (checkDownloadableHandler newService (some req)).1 =
        ⟨500, [("error", "unable to get file: " ++ e)]⟩) ∧
    (∀ srv e, newService = .ok srv → matchString "/folders/" req.link = true →
      srv.filesList ("\x27" ++ extractIdFromLink req.link ++ "\x27 in parents") = .error e →
      (checkDownloadableHandler newService (some req)).1 =
        ⟨500, [("error", "unable to list files: " ++ e)]⟩) ∧
    (∀ e, newService = .error e →
      (checkDownloadableHandler newService (some req)).1 =
        ⟨500, [("error", "unable to create Drive service: " ++ e)]⟩) := by
  have hd := handler_dispatch newService req ht hid
  refine ⟨?_, ?_, ?_⟩
  · intro srv e hs hm hg
    subst hs
    have hm' : ¬ matchString "/folders/" req.link = true := by simp [hm]
    rw [hd, if_neg hm', isDownloadable_get_error _ hg]
    rfl
  · intro srv e hs hm hl
    subst hs
    have hl' : srv.filesList (folderQuery (extractIdFromLink req.link)) = .error e := hl
    rw [hd, if_pos hm, checkFolder_list_error _ hl']
    rfl
  · intro e hs
    subst hs
    rw [hd]
    split <;> rfl

/-- C7 (amended), at a file link whose lookup fails with `notFound`. -/
theorem provider_error_prefixed_witness :
    (checkDownloadableHandler (.ok (failingService "notFound"))
        (some ⟨"https://drive.google.com/file/d/1aB-_9/view", "pdf"⟩)).1 =
      ⟨500, [("error", "unable to get file: notFound")]⟩ :=
  (provider_error_prefixed (.ok (failingService "notFound"))
    ⟨"https://drive.google.com/file/d/1aB-_9/view", "pdf"⟩ (by decide) (by decide)).1
    (failingService "notFound") "notFound" rfl (by decide) rfl

/-- C8: for every request with a recognised type and a link that yields an identifier, in
file mode and in folder mode alike, if the provider call fails (the single-file lookup in
file mode, the folder listing in folder mode, or building the client) with any error, an
empty message included, the handler responds 500 with a non-empty error message, and
not 200. -/
theorem provider_failure_is_server_error (newService : Except GoError Service) (req : Request)
    (ht : Recognised req.type) (hid : extractIdFromLink req.link ≠ "")
    (hfail : (∃ e, newService = .error e) ∨
      ∃ srv e, newService = .ok srv ∧
        ((matchString "/folders/" req.link = false ∧
            srv.filesGet (extractIdFromLink req.link) = .error e) ∨
          (matchString "/folders/" req.link = true ∧
            srv.filesList ("\x27" ++ extractIdFromLink req.link ++ "\x27 in parents") =
              .error e))) :
    ∃ msg, (checkDownloadableHandler newService (some req)).1 = ⟨500, [("error", msg)]⟩ ∧
      msg ≠ "" ∧ (checkDownloadableHandler newService (some req)).1.status ≠ 200 := by
  have hd := handler_dispatch newService req ht hid
  rcases hfail with ⟨e, hs⟩ | ⟨srv, e, hs, ⟨hm, hg⟩ | ⟨hm, hl⟩⟩
  · subst hs
    refine ⟨"unable to create Drive service: " ++ e, ?_, append_ne_empty _ (by decide), ?_⟩
    · rw [hd]; split <;> rfl
    · rw [hd]; split <;> simp [respond, checkFolder, isDownloadable]
  · subst hs
    have hm' : ¬ matchString "/folders/" req.link = true := by simp [hm]
    rw [hd, if_neg hm', isDownloadable_get_error _ hg]
    exact ⟨"unable to get file: " ++ e, rfl, append_ne_empty _ (by decide), by simp [respond]⟩
  · subst hs
    have hl' : srv.filesList (folderQuery (extractIdFromLink req.link)) = .error e := hl
    rw [hd, if_pos hm, checkFolder_list_error _ hl']
    exact ⟨"unable to list files: " ++ e, rfl, append_ne_empty _ (by decide), by simp [respond]⟩

/-- C8, at a folder link whose listing fails with an empty message: the 500 response
carries `unable to list files: `. -/
theorem provider_failure_is_server_error_witness :
    ∃ msg, (checkDownloadableHandler (.ok (failingService ""))
        (some ⟨"https://drive.google.com/drive/folders/F0_x-1", "video"⟩)).1 =
        ⟨500, [("error", msg)]⟩ ∧
      msg ≠ "" ∧
      (checkDownloadableHandler (.ok (failingService ""))
        (some ⟨"https://drive.google.com/drive/folders/F0_x-1", "video"⟩)).1.status ≠ 200 :=
  provider_failure_is_server_error (.ok (failingService ""))
    ⟨"https://drive.google.com/drive/folders/F0_x-1", "video"⟩ (by decide) (by decide)
    (Or.inr ⟨failingService "", "", rfl, Or.inr ⟨by decide, rfl⟩⟩)

end Goo
